import Mathlib

/-!
Verification of the status-sync / status-feedback engine of the work-api
repository.  The Go source is shallowly embedded: pure functions become Lean
functions, the Kubernetes client calls (decode, fetch, jsonpath evaluation,
status read/write) become explicit environment inputs, and machine integers
become `Int`/`Nat` (no arithmetic near overflow occurs in the modelled code).
-/

/-- Tri-state condition status, embedding `metav1.ConditionStatus`
(`"True"`, `"False"`, `"Unknown"`). -/
inductive ConditionStatus where
  | ctrue
  | cfalse
  | cunknown
deriving DecidableEq, Repr

/-- Embeds `metav1.Condition`: type, status, reason, message,
observedGeneration and lastTransitionTime.  Time is abstracted to `Nat`,
with `0` playing the role of the zero (unset) timestamp, matching
`LastTransitionTime.IsZero()`. -/
structure Condition where
  type : String
  status : ConditionStatus
  reason : String
  message : String
  observedGeneration : Int
  lastTransitionTime : Nat
deriving DecidableEq, Repr

/-- The in-place-update branch of `meta.SetStatusCondition` (apimachinery):
`LastTransitionTime` moves only on a status flip; reason, message and
observedGeneration are always overwritten. -/
def updateExistingCondition (now : Nat) (e c : Condition) : Condition :=
  let e1 :=
    if e.status = c.status then e
    else
      { e with
        status := c.status,
        lastTransitionTime := if c.lastTransitionTime ≠ 0 then c.lastTransitionTime else now }
  { e1 with
    reason := c.reason, message := c.message, observedGeneration := c.observedGeneration }

/-- The append branch of `meta.SetStatusCondition`: a fresh condition is
stamped with the clock when its timestamp is zero. -/
def stampNewCondition (now : Nat) (c : Condition) : Condition :=
  if c.lastTransitionTime = 0 then { c with lastTransitionTime := now } else c

/-- Embeds `meta.SetStatusCondition`: mutate the first condition whose
`Type` matches, or append the new condition when no condition of that type
exists.  The Go find-first-then-mutate/append is rendered as structural
recursion along the list. -/
def setStatusCondition (now : Nat) : List Condition → Condition → List Condition
  | [], c => [stampNewCondition now c]
  | e :: rest, c =>
    if e.type = c.type then updateExistingCondition now e c :: rest
    else e :: setStatusCondition now rest c

/-- Embeds `meta.FindStatusCondition`: first condition of the given type. -/
def findType : List Condition → String → Option Condition
  | [], _ => none
  | e :: rest, t => if e.type = t then some e else findType rest t

/-- The value discriminant of `workv1alpha1.ValueType`. -/
inductive ValueType where
  | Integer
  | String
  | Boolean
deriving DecidableEq, Repr

/-- Embeds `workv1alpha1.FieldValue`: a discriminant plus one optional
payload per variant. -/
structure FieldValue where
  type : ValueType
  integer : Option Int
  string : Option String
  boolean : Option Bool
deriving DecidableEq, Repr

/-- Embeds `workv1alpha1.FeedbackValue` (and its near-duplicate
`workv1alpha1.SyncValue`): a named field value. -/
structure FeedbackValue where
  name : String
  value : FieldValue
deriving DecidableEq, Repr

/-- The status-sync API calls the same shape `SyncValue`. -/
abbrev SyncValue := FeedbackValue

/-- Embeds `workv1alpha1.ResourceIdentifier` of the sync/feedback status API. -/
structure ResourceIdentifierM where
  ordinal : Int
  group : String
  version : String
  kind : String
  resource : String
  nspace : String
  name : String
deriving DecidableEq, Repr

/-- Embeds `workv1alpha1.ManifestCondition`: identifier, conditions, and the
synced values (`StatusSync.Values` in the sync API, `StatusFeedbacks.Values`
in the feedback API — structurally the same field). -/
structure ManifestConditionM where
  identifier : ResourceIdentifierM
  conditions : List Condition
  syncValues : List SyncValue
deriving DecidableEq, Repr

/-- Embeds `workv1alpha1.WorkStatus`: work-level conditions plus the
per-manifest condition list. -/
structure WorkStatusM where
  conditions : List Condition
  manifestConditions : List ManifestConditionM
deriving DecidableEq, Repr

/-- One nested step of the counting loop of `aggregateManifestConditions`:
walk the conditions of one manifest, ignoring conditions whose type is not
`"Available"`, incrementing the (available, unavailable, unknown) counters. -/
def tallyConds (acc : Nat × Nat × Nat) : List Condition → Nat × Nat × Nat
  | [] => acc
  | c :: rest =>
    if c.type ≠ "Available" then tallyConds acc rest
    else
      match c.status with
      | .ctrue => tallyConds (acc.1 + 1, acc.2.1, acc.2.2) rest
      | .cfalse => tallyConds (acc.1, acc.2.1 + 1, acc.2.2) rest
      | .cunknown => tallyConds (acc.1, acc.2.1, acc.2.2 + 1) rest

/-- The outer loop of `aggregateManifestConditions` over all manifests. -/
def tallyManifests (acc : Nat × Nat × Nat) : List ManifestConditionM → Nat × Nat × Nat
  | [] => acc
  | m :: rest => tallyManifests (tallyConds acc m.conditions) rest

/-- Embeds `aggregateManifestConditions` of
`pkg/controllers/status_sync_controller.go`: count the `"Available"`
conditions of every manifest by status, then emit the work-level condition
with the source's exact precedence (any unavailable, else any unknown, else
none available, else all available). -/
def aggregateManifestConditions (generation : Int) (manifests : List ManifestConditionM) : Condition :=
  let t := tallyManifests (0, 0, 0) manifests
  let available := t.1
  let unavailable := t.2.1
  let unknown := t.2.2
  let total := manifests.length
  if unavailable > 0 then
    { type := "Available", status := .cfalse, reason := "ResourcesNotAvailable",
      observedGeneration := generation,
      message := toString unavailable ++ " of " ++ toString total ++ " resources are not available",
      lastTransitionTime := 0 }
  else if unknown > 0 then
    { type := "Available", status := .cunknown, reason := "ResourcesStatusUnknown",
      observedGeneration := generation,
      message := toString unknown ++ " of " ++ toString total ++ " resources have unknown status",
      lastTransitionTime := 0 }
  else if available = 0 then
    { type := "Available", status := .cunknown, reason := "ResourcesStatusUnknown",
      observedGeneration := generation,
      message := "cannot get any available resource",
      lastTransitionTime := 0 }
  else
    { type := "Available", status := .ctrue, reason := "ResourcesAvailable",
      observedGeneration := generation,
      message := "All resources are available",
      lastTransitionTime := 0 }

/-- Specification-side count: the number of `"Available"`-typed conditions
with a given status, over all conditions of all manifests. -/
def countAvailStatus (s : ConditionStatus) (ms : List ManifestConditionM) : Nat :=
  ((ms.map (fun m => m.conditions)).flatten).countP
    (fun c => decide (c.type = "Available" ∧ c.status = s))

/-- A runtime value produced by evaluating a jsonpath against the
unstructured content of a resource, as discriminated by the type switch of
`getValueByJsonPath`: the supported scalars (`int64`, `string`, `bool`),
the `nil` interface value, and any other runtime type (map, slice, struct,
float64, ...) abstracted by its `reflect.TypeOf` name. -/
inductive GoValue where
  | vint (i : Int)
  | vstr (s : String)
  | vbool (b : Bool)
  | vnull
  | vother (typeName : String)
deriving DecidableEq, Repr

/-- The outcome of `jsonpath.New(name).AllowMissingKeys(true)` followed by
`Parse` and `FindResults` (the k8s.io/client-go jsonpath library, external
to this repository): either `Parse` fails, or `FindResults` fails, or it
yields a list of result groups. -/
inductive JsonPathOutcome where
  | parseError (msg : String)
  | findError (msg : String)
  | results (rs : List (List GoValue))
deriving DecidableEq, Repr

/-- Embeds `getValueByJsonPath` of `pkg/statusfeedback/reader.go`: the
jsonpath machinery is abstracted into the `JsonPathOutcome` input; the
branching on the outcome and the type switch on the single used result
`results[0][0]` follow the source line by line. -/
def getValueByJsonPath (name path : String) (outcome : JsonPathOutcome) :
    Except String (Option FeedbackValue) :=
  match outcome with
  | .parseError e =>
      .error ("failed to parse json path " ++ path ++ " of " ++ name ++ " with error: " ++ e)
  | .findError e =>
      .error ("failed to find value for " ++ name ++ " with error: " ++ e)
  | .results rs =>
    match rs with
    | [] => .ok none
    | [] :: _ => .ok none
    | (v :: _) :: _ =>
      match v with
      | .vnull => .ok none
      | .vint i =>
          .ok (some { name := name, value := { type := .Integer, integer := some i, string := none, boolean := none } })
      | .vstr s =>
          .ok (some { name := name, value := { type := .String, integer := none, string := some s, boolean := none } })
      | .vbool b =>
          .ok (some { name := name, value := { type := .Boolean, integer := none, string := none, boolean := some b } })
      | .vother t =>
          .error ("the type " ++ t ++ " of the value for " ++ name ++ " is not found")

/-- Embeds `schema.GroupVersionKind`. -/
structure GroupVersionKind where
  group : String
  version : String
  kind : String
deriving DecidableEq, Repr

/-- Embeds `GroupVersionKind.String()` of apimachinery
("group/version, Kind=kind"). -/
def gvkString (gvk : GroupVersionKind) : String :=
  gvk.group ++ "/" ++ gvk.version ++ ", Kind=" ++ gvk.kind

/-- Embeds `workv1alpha1.JsonPath`: alias name, optional version constraint
(empty string when unset), and the path expression. -/
structure JsonPath where
  name : String
  version : String
  path : String
deriving DecidableEq, Repr

/-- The `deploymentRule` table entry of `pkg/statusfeedback/rules/rule.go`
(and its duplicate `pkg/statussync/rules/rule.go`). -/
def deploymentRule : List JsonPath :=
  [{ name := "ReadyReplicas", version := "", path := ".status.readyReplicas" },
   { name := "Replicas", version := "", path := ".status.replicas" },
   { name := "AvailableReplicas", version := "", path := ".status.availableReplicas" }]

/-- The `jobRule` table entry. -/
def jobRule : List JsonPath :=
  [{ name := "JobComplete", version := "",
     path := ".status.conditions[?(@.type==\"Complete\")].status" },
   { name := "JobSucceeded", version := "", path := ".status.succeeded" }]

/-- The `podRule` table entry. -/
def podRule : List JsonPath :=
  [{ name := "PodReady", version := "",
     path := ".status.conditions[?(@.type==\"Ready\")].status" },
   { name := "PodPhase", version := "", path := ".status.phase" }]

/-- Embeds `DefaultCommonFieldsStatusResolver.GetPathsByKind`: the static
built-in map of `DefaultCommonFieldsStatusRule()` (Deployment, Job, Pod),
with the Go map's nil-slice zero value for an absent key rendered as `[]`. -/
def GetPathsByKind (gvk : GroupVersionKind) : List JsonPath :=
  if gvk = { group := "apps", version := "v1", kind := "Deployment" } then deploymentRule
  else if gvk = { group := "batch", version := "v1", kind := "Job" } then jobRule
  else if gvk = { group := "", version := "v1", kind := "Pod" } then podRule
  else []

/-- A fetched resource object (`unstructured.Unstructured`), reduced to the
parts the modelled code reads: its GroupVersionKind, namespace and name,
and the jsonpath evaluation of its unstructured content, abstracted as a
function from (alias name, path expression) to a `JsonPathOutcome`. -/
structure ResourceObject where
  gvk : GroupVersionKind
  nspace : String
  name : String
  resolve : String → String → JsonPathOutcome

/-- Models `utilerrors.NewAggregate` (apimachinery, external): `nil` iff the
error list is empty; a single error keeps its own message; several errors
are bracketed and comma-joined. -/
def aggregateErrors (errs : List String) : Option String :=
  match errs with
  | [] => none
  | [e] => some e
  | _ => some ("[" ++ String.intercalate ", " errs ++ "]")

/-- Embeds `workv1alpha1.FeedBackType` (`CommonFields` | `JSONPaths`). -/
inductive FeedBackType where
  | CommonFields
  | JSONPaths
deriving DecidableEq, Repr

/-- Embeds `workv1alpha1.StatusFeedbackRule`. -/
structure StatusFeedbackRule where
  type : FeedBackType
  jsonPaths : List JsonPath
deriving DecidableEq, Repr

/-- One step of the per-path loops of `StatusReader.GetValuesByRule`:
an extraction error is appended to the error list, a nil value is skipped,
a produced value is appended to the value list. -/
def collectPathValue (obj : ResourceObject) (acc : List FeedbackValue × List String)
    (p : JsonPath) : List FeedbackValue × List String :=
  match getValueByJsonPath p.name p.path (obj.resolve p.name p.path) with
  | .error e => (acc.1, acc.2 ++ [e])
  | .ok none => acc
  | .ok (some v) => (acc.1 ++ [v], acc.2)

/-- The error produced by the `CommonFields` branch when the built-in table
has no entry for the resource's type (note the source's spelling
"resrouce"). -/
def noCommonFieldsMsg (gvk : GroupVersionKind) : String :=
  "cannot find the CommonFields statuses for resrouce with gvk " ++ gvkString gvk

/-- Embeds `StatusReader.GetValuesByRule` of `pkg/statusfeedback/reader.go`:
for `CommonFields`, resolve the built-in paths for the object's type (empty
resolution is an error); for `JSONPaths`, walk the user-supplied paths,
recording a version-mismatch error for paths whose declared version does
not match the object's; every path's extraction feeds `collectPathValue`;
the collected errors are folded by `utilerrors.NewAggregate`. -/
def GetValuesByRule (obj : ResourceObject) (rule : StatusFeedbackRule) :
    List FeedbackValue × Option String :=
  match rule.type with
  | .CommonFields =>
    let paths := GetPathsByKind obj.gvk
    if paths = [] then ([], some (noCommonFieldsMsg obj.gvk))
    else
      let r := paths.foldl (collectPathValue obj) ([], [])
      (r.1, aggregateErrors r.2)
  | .JSONPaths =>
    let step := fun (acc : List FeedbackValue × List String) (p : JsonPath) =>
      if p.version ≠ "" ∧ obj.gvk.version ≠ p.version then
        (acc.1, acc.2 ++ ["version set in the path " ++ p.name ++ " is not matched for the related resource"])
      else collectPathValue obj acc p
    let r := rule.jsonPaths.foldl step ([], [])
    (r.1, aggregateErrors r.2)

/-- A resource object of an unregistered type, used to witness
`commonFields_resolution`. -/
def widgetObj : ResourceObject :=
  { gvk := { group := "example.com", version := "v1", kind := "Widget" },
    nspace := "ns", name := "w", resolve := fun _ _ => .results [] }

/-- Embeds `workv1alpha1.Script` of the status-sync configuration API. -/
structure ScriptM where
  name : String
  language : String
  content : String
deriving DecidableEq, Repr

/-- Embeds `workv1alpha1.SyncType` (`JSONPaths` | `Scripts`). -/
inductive SyncType where
  | JSONPaths
  | Scripts
deriving DecidableEq, Repr

/-- Embeds `workv1alpha1.StatusSyncRule`. -/
structure StatusSyncRule where
  type : SyncType
  jsonPaths : List JsonPath
  scripts : List ScriptM
deriving DecidableEq, Repr

/-- The status-sync reader consumed by `getSyncValues`
(`statussync.StatusReader.GetValuesByRule`); its implementation file is not
part of the modelled sources, so it is kept abstract: any function from a
resource object and a rule to (values, optional error). -/
abbrev SyncReader := ResourceObject → StatusSyncRule → List SyncValue × Option String

/-- One iteration of the rule loop of `getSyncValues`: the rule's error (if
any) is appended to the error list, the rule's values (if non-empty) are
appended to the value list. -/
def collectRuleValues (reader : SyncReader) (obj : ResourceObject)
    (acc : List SyncValue × List String) (rule : StatusSyncRule) :
    List SyncValue × List String :=
  let vr := reader obj rule
  let errs := match vr.2 with
    | some e => acc.2 ++ [e]
    | none => acc.2
  let values := if vr.1.length > 0 then acc.1 ++ vr.1 else acc.1
  (values, errs)

/-- Embeds `getSyncValues` of `pkg/controllers/status_sync_controller.go`:
run every sync rule through the status reader, aggregate the errors, and
derive the `"StatusSynced"` condition (failed / nothing synced / synced). -/
def getSyncValues (reader : SyncReader) (obj : ResourceObject)
    (rules : List StatusSyncRule) : List SyncValue × Condition :=
  let r := rules.foldl (collectRuleValues reader obj) ([], [])
  match aggregateErrors r.2 with
  | some msg =>
      (r.1, { type := "StatusSynced", reason := "StatusSyncFailed", status := .cfalse,
              message := "Sync status failed with error " ++ msg,
              observedGeneration := 0, lastTransitionTime := 0 })
  | none =>
      if r.1.length = 0 then
        (r.1, { type := "StatusSynced", reason := "NoStatusSynced", status := .ctrue,
                message := "", observedGeneration := 0, lastTransitionTime := 0 })
      else
        (r.1, { type := "StatusSynced", reason := "StatusSynced", status := .ctrue,
                message := "", observedGeneration := 0, lastTransitionTime := 0 })

/-- The outcome of `decodeUnstructured(manifest, restMapper)` (resource-meta
decoding, a collaborator outside the modelled files): failure with a
message, or success.  The decoded coordinates only route the subsequent
fetch, which the environment supplies directly, so the success payload is
not materialised. -/
inductive DecodeOutcome where
  | err (msg : String)
  | ok
deriving DecidableEq, Repr

/-- The outcome of the dynamic-client `Get` of the manifest's resource:
a not-found error (`errors.IsNotFound`), any other error, or the fetched
object.  `IsNotFound` is only true of a non-nil error, so both error
constructors carry a message. -/
inductive FetchOutcome where
  | notFound (msg : String)
  | otherError (msg : String)
  | ok (obj : ResourceObject)

/-- The per-manifest collaborator outcomes consumed by
`buildAvailableStatusCondition`. -/
structure BuildEnv where
  decode : DecodeOutcome
  fetch : FetchOutcome

/-- Embeds `buildAvailableStatusCondition` of
`pkg/controllers/status_sync_controller.go`: decode failure → Unknown /
"IncompletedResourceMeta"; not-found fetch → False / "ResourceNotAvailable";
other fetch error → Unknown / "FetchingResourceFailed" with the error
detail; success → True / "ResourceAvailable" with the fetched object and a
nil error. -/
def buildAvailableStatusCondition (env : BuildEnv) :
    Option ResourceObject × Condition × Option String :=
  match env.decode with
  | .err e =>
      (none,
       { type := "Available", status := .cunknown, reason := "IncompletedResourceMeta",
         message := "Resource meta is incompleted", observedGeneration := 0,
         lastTransitionTime := 0 },
       some e)
  | .ok =>
    match env.fetch with
    | .notFound e =>
        (none,
         { type := "Available", status := .cfalse, reason := "ResourceNotAvailable",
           message := "Resource is not available", observedGeneration := 0,
           lastTransitionTime := 0 },
         some e)
    | .otherError e =>
        (none,
         { type := "Available", status := .cunknown, reason := "FetchingResourceFailed",
           message := "Failed to fetch resource: " ++ e, observedGeneration := 0,
           lastTransitionTime := 0 },
         some e)
    | .ok obj =>
        (some obj,
         { type := "Available", status := .ctrue, reason := "ResourceAvailable",
           message := "Resource is available", observedGeneration := 0,
           lastTransitionTime := 0 },
         none)

/-- The fields of a condition that `meta.SetStatusCondition` forces to agree
with the incoming condition (everything except `lastTransitionTime`). -/
def condMatches (e c : Condition) : Prop :=
  e.type = c.type ∧ e.status = c.status ∧ e.reason = c.reason ∧
    e.message = c.message ∧ e.observedGeneration = c.observedGeneration

/-- Embeds `workv1alpha1.Manifest` of the status-sync API: an opaque raw
extension (its decoding is an environment outcome, keyed by position). -/
structure ManifestM where
  raw : String
deriving DecidableEq, Repr

/-- The per-manifest configuration entry read by `syncWork`
(`work.Spec.WorkloadConfig.ManifestConfigs`); the controller reads only the
resource identifier's group/version/kind and the sync rules.
`stopSyncThreshold` is modelled from the spec and the CRD declaration
(`ResourceStatusSyncConfiguration.StopSyncThreshold`: "minimum consecutive
probe before stopping the sync", 0 = never stop); no modelled controller
code reads it. -/
structure ManifestConfig where
  resourceIdentifier : GroupVersionKind
  statusSyncRules : List StatusSyncRule
  stopSyncThreshold : Int

/-- Embeds the parts of `workv1alpha1.WorkSpec` read by `syncWork`:
`Workload.Manifests` and `WorkloadConfig.ManifestConfigs`. -/
structure WorkSpecM where
  manifests : List ManifestM
  manifestConfigs : List ManifestConfig

/-- Embeds `workv1alpha1.Work` as read by the status-sync controller:
generation, spec and status. -/
structure Work where
  generation : Int
  spec : WorkSpecM
  status : WorkStatusM

/-- The collaborator outcomes of one reconcile pass of `syncWork`: the
decode/fetch outcome for the manifest at each spec position, and the status
reader.  A pass with unchanged backing resources and rules is a pass with
the same `SyncEnv`. -/
structure SyncEnv where
  build : Nat → BuildEnv
  reader : SyncReader

/-- The manifest-config matching of `syncWork`: first config whose resource
identifier's group, version and kind equal the fetched object's (the `break`
of the source keeps only the first match). -/
def findMatchingConfig (configs : List ManifestConfig) (gvk : GroupVersionKind) :
    Option ManifestConfig :=
  configs.find? (fun cfg =>
    decide (cfg.resourceIdentifier.group = gvk.group ∧
            cfg.resourceIdentifier.version = gvk.version ∧
            cfg.resourceIdentifier.kind = gvk.kind))

/-- The body of the manifest loop of `syncWork` for the manifest at spec
position `i`, acting on the status entry `work.Status.ManifestConditions[i]`:
set the availability condition; on a build error skip extraction
(`continue`); otherwise look for a matching manifest config and, if found,
set the sync condition and overwrite the synced values. -/
def updateManifestEntry (env : SyncEnv) (now : Nat) (spec : WorkSpecM) (i : Nat)
    (mc : ManifestConditionM) : ManifestConditionM :=
  let b := buildAvailableStatusCondition (env.build i)
  let mc1 := { mc with conditions := setStatusCondition now mc.conditions b.2.1 }
  match b.2.2 with
  | some _ => mc1
  | none =>
    match b.1 with
    | none => mc1
    | some obj =>
      match findMatchingConfig spec.manifestConfigs obj.gvk with
      | none => mc1
      | some cfg =>
        let vc := getSyncValues env.reader obj cfg.statusSyncRules
        { mc1 with conditions := setStatusCondition now mc1.conditions vc.2,
                   syncValues := vc.1 }

/-- The manifest loop of `syncWork` over the list of spec positions,
threading the per-manifest condition list.  The unguarded Go index access
`work.Status.ManifestConditions[index]` panics when the index is out of
range; the panic (which aborts the pass with no write) is modelled as
`none`. -/
def syncLoop (env : SyncEnv) (now : Nat) (spec : WorkSpecM) :
    List Nat → List ManifestConditionM → Option (List ManifestConditionM)
  | [], mcs => some mcs
  | i :: rest, mcs =>
    if h : i < mcs.length then
      syncLoop env now spec rest (mcs.set i (updateManifestEntry env now spec i (mcs.get ⟨i, h⟩)))
    else none

/-- Embeds the status computation of `syncWork`
(`pkg/controllers/status_sync_controller.go`): run the manifest loop over
every spec position, aggregate the resulting manifest conditions, and set
the work-level condition — the full candidate status of the pass. -/
def syncWorkCandidate (env : SyncEnv) (now : Nat) (w : Work) : Option WorkStatusM :=
  match syncLoop env now w.spec (List.range w.spec.manifests.length) w.status.manifestConditions with
  | none => none
  | some mcs =>
    some { conditions := setStatusCondition now w.status.conditions
             (aggregateManifestConditions w.generation mcs),
           manifestConditions := mcs }

/-- Embeds `syncWork` including its write decision: the pass issues a status
update exactly when the deep-equality comparison of the candidate against
the original status (work conditions and manifest conditions) detects a
change.  The boolean records whether an update was issued. -/
def syncWork (env : SyncEnv) (now : Nat) (w : Work) : Option (WorkStatusM × Bool) :=
  match syncWorkCandidate env now w with
  | none => none
  | some st =>
    some (st, decide (¬ (w.status.conditions = st.conditions ∧
                         w.status.manifestConditions = st.manifestConditions)))

/-- A sync environment in which every manifest fails to decode; used for
concrete evaluations. -/
def trivialEnv : SyncEnv :=
  { build := fun _ => { decode := .err "no meta", fetch := .notFound "nf" },
    reader := fun _ _ => ([], none) }

/-- The all-empty resource identifier (Go zero value). -/
def emptyIdentifier : ResourceIdentifierM :=
  { ordinal := 0, group := "", version := "", kind := "", resource := "",
    nspace := "", name := "" }

/-- An empty per-manifest status entry. -/
def mcEmpty : ManifestConditionM :=
  { identifier := emptyIdentifier, conditions := [], syncValues := [] }

/-- A Work whose status has fewer manifest-condition entries (none) than its
spec has manifests (one). -/
def badWork : Work :=
  { generation := 0,
    spec := { manifests := [{ raw := "m0" }], manifestConfigs := [] },
    status := { conditions := [], manifestConditions := [] } }

/-- A Work with one manifest and one status entry. -/
def goodWork : Work :=
  { generation := 0,
    spec := { manifests := [{ raw := "m0" }], manifestConfigs := [] },
    status := { conditions := [], manifestConditions := [mcEmpty] } }

/-- The candidate status produced by a `trivialEnv` pass over `goodWork` at
time 7, used to witness `syncWork_idempotent`. -/
def st1Good : WorkStatusM :=
  { conditions := [{ type := "Available", status := .cunknown,
                     reason := "ResourcesStatusUnknown",
                     message := "1 of 1 resources have unknown status",
                     observedGeneration := 0, lastTransitionTime := 7 }],
    manifestConditions := [{ identifier := emptyIdentifier,
                             conditions := [{ type := "Available", status := .cunknown,
                                              reason := "IncompletedResourceMeta",
                                              message := "Resource meta is incompleted",
                                              observedGeneration := 0,
                                              lastTransitionTime := 7 }],
                             syncValues := [] }] }

/-- A fetched Deployment object whose jsonpath evaluation always yields no
results. -/
def objZ : ResourceObject :=
  { gvk := { group := "apps", version := "v1", kind := "Deployment" },
    nspace := "default", name := "d", resolve := fun _ _ => .results [] }

/-- A Work with two manifests and two (empty) status entries. -/
def wTwo : Work :=
  { generation := 0,
    spec := { manifests := [{ raw := "m0" }, { raw := "m1" }], manifestConfigs := [] },
    status := { conditions := [], manifestConditions := [mcEmpty, mcEmpty] } }

/-- Environment in which both manifests fetch successfully. -/
def envBothOk : SyncEnv :=
  { build := fun _ => { decode := .ok, fetch := .ok objZ },
    reader := fun _ _ => ([], none) }

/-- Environment in which manifest 0's fetch fails with not-found and
manifest 1 fetches successfully. -/
def envFirstNotFound : SyncEnv :=
  { build := fun k =>
      if k = 0 then { decode := .ok, fetch := .notFound "deployments \"d\" not found" }
      else { decode := .ok, fetch := .ok objZ },
    reader := fun _ _ => ([], none) }

/-- The candidate status of the all-ok pass over `wTwo` at time 5. -/
def stBothOk : WorkStatusM :=
  { conditions := [{ type := "Available", status := .ctrue, reason := "ResourcesAvailable",
                     message := "All resources are available",
                     observedGeneration := 0, lastTransitionTime := 5 }],
    manifestConditions :=
      [{ identifier := emptyIdentifier,
         conditions := [{ type := "Available", status := .ctrue,
                          reason := "ResourceAvailable", message := "Resource is available",
                          observedGeneration := 0, lastTransitionTime := 5 }],
         syncValues := [] },
       { identifier := emptyIdentifier,
         conditions := [{ type := "Available", status := .ctrue,
                          reason := "ResourceAvailable", message := "Resource is available",
                          observedGeneration := 0, lastTransitionTime := 5 }],
         syncValues := [] }] }

/-- The candidate status of the pass over `wTwo` at time 5 in which
manifest 0's fetch fails with not-found. -/
def stFirstNotFound : WorkStatusM :=
  { conditions := [{ type := "Available", status := .cfalse, reason := "ResourcesNotAvailable",
                     message := "1 of 2 resources are not available",
                     observedGeneration := 0, lastTransitionTime := 5 }],
    manifestConditions :=
      [{ identifier := emptyIdentifier,
         conditions := [{ type := "Available", status := .cfalse,
                          reason := "ResourceNotAvailable",
                          message := "Resource is not available",
                          observedGeneration := 0, lastTransitionTime := 5 }],
         syncValues := [] },
       { identifier := emptyIdentifier,
         conditions := [{ type := "Available", status := .ctrue,
                          reason := "ResourceAvailable", message := "Resource is available",
                          observedGeneration := 0, lastTransitionTime := 5 }],
         syncValues := [] }] }

/-- Embeds `workv1alpha1.Manifest` of the status-feedback API: raw extension
plus the optional per-manifest `StatusFeedbackRules` (`none` embeds the Go
nil slice tested by `manifest.StatusFeedbackRules == nil`). -/
structure ManifestF where
  raw : String
  statusFeedbackRules : Option (List StatusFeedbackRule)

/-- One iteration of the rule loop of `getFeedbackValues`, feeding the
repository's own `StatusReader.GetValuesByRule`. -/
def collectFeedbackRule (obj : ResourceObject) (acc : List FeedbackValue × List String)
    (rule : StatusFeedbackRule) : List FeedbackValue × List String :=
  let vr := GetValuesByRule obj rule
  let errs := match vr.2 with
    | some e => acc.2 ++ [e]
    | none => acc.2
  let values := if vr.1.length > 0 then acc.1 ++ vr.1 else acc.1
  (values, errs)

/-- Embeds `getFeedbackValues` of the status-feedback reconciler: run every
feedback rule through the status reader, aggregate the errors, and derive
the `"StatusFeedbackSynced"` condition. -/
def getFeedbackValues (obj : ResourceObject) (rules : List StatusFeedbackRule) :
    List FeedbackValue × Condition :=
  let r := rules.foldl (collectFeedbackRule obj) ([], [])
  match aggregateErrors r.2 with
  | some msg =>
      (r.1, { type := "StatusFeedbackSynced", reason := "StatusFeedbackSyncFailed",
              status := .cfalse,
              message := "Sync status feedback failed with error " ++ msg,
              observedGeneration := 0, lastTransitionTime := 0 })
  | none =>
      if r.1.length = 0 then
        (r.1, { type := "StatusFeedbackSynced", reason := "NoStatusFeedbackSynced",
                status := .ctrue, message := "", observedGeneration := 0,
                lastTransitionTime := 0 })
      else
        (r.1, { type := "StatusFeedbackSynced", reason := "StatusFeedbackSynced",
                status := .ctrue, message := "", observedGeneration := 0,
                lastTransitionTime := 0 })

/-- The identifier matching of the feedback reconciler's inner loop:
namespace, name, group, version and kind of a status entry against the
fetched object. -/
def identifierMatches (id : ResourceIdentifierM) (obj : ResourceObject) : Bool :=
  decide (id.nspace = obj.nspace ∧ id.name = obj.name ∧ id.group = obj.gvk.group ∧
          id.version = obj.gvk.version ∧ id.kind = obj.gvk.kind)

/-- The inner loop of the feedback reconciler: set the feedback condition
and values on the first status entry whose identifier matches the fetched
object (the `break` keeps only the first match). -/
def setFirstMatchingEntry (now : Nat) (obj : ResourceObject) (cond : Condition)
    (values : List FeedbackValue) : List ManifestConditionM → List ManifestConditionM
  | [] => []
  | mc :: rest =>
    if identifierMatches mc.identifier obj then
      { mc with conditions := setStatusCondition now mc.conditions cond,
                syncValues := values } :: rest
    else mc :: setFirstMatchingEntry now obj cond values rest

/-- Embeds the manifest loop of `StatusFeedbackReconciler.Reconcile`
(edge-triggered variant): manifests without feedback rules are skipped; a
fetch error for a manifest makes the whole pass return immediately
(requeue), leaving the status as accumulated so far; on success the
feedback values and condition are written to the first matching status
entry.  `ffetch` is the outcome of `getResourceObject` per spec position
(`none` embeds any decode/fetch error, including not-found). -/
def reconcileManifests (ffetch : Nat → Option ResourceObject) (now : Nat) :
    Nat → List ManifestF → List ManifestConditionM → List ManifestConditionM
  | _, [], mcs => mcs
  | idx, m :: rest, mcs =>
    match m.statusFeedbackRules with
    | none => reconcileManifests ffetch now (idx + 1) rest mcs
    | some rules =>
      match ffetch idx with
      | none => mcs
      | some obj =>
        let vc := getFeedbackValues obj rules
        reconcileManifests ffetch now (idx + 1) rest
          (setFirstMatchingEntry now obj vc.2 vc.1 mcs)

/-- The feedback rule of the counterexample: one explicit json path. -/
def rulesCex : List StatusFeedbackRule :=
  [{ type := .JSONPaths, jsonPaths := [{ name := "ReadyReplicas", version := "",
                                         path := ".status.readyReplicas" }] }]

/-- A fetched Deployment whose `.status.readyReplicas` resolves to 3. -/
def objThree : ResourceObject :=
  { gvk := { group := "apps", version := "v1", kind := "Deployment" },
    nspace := "default", name := "d", resolve := fun _ _ => .results [[.vint 3]] }

/-- Fetch outcomes of the counterexample pass: manifest 0's resource fetch
fails, manifest 1's succeeds. -/
def ffetchCex : Nat → Option ResourceObject :=
  fun idx => if idx = 1 then some objThree else none

/-- The two manifests of the counterexample, both with feedback rules. -/
def manifestsCex : List ManifestF :=
  [{ raw := "m0", statusFeedbackRules := some rulesCex },
   { raw := "m1", statusFeedbackRules := some rulesCex }]

/-- The status entry of the sibling manifest 1, whose identifier matches
`objThree`. -/
def mcSibling : ManifestConditionM :=
  { identifier := { ordinal := 1, group := "apps", version := "v1", kind := "Deployment",
                    resource := "deployments", nspace := "default", name := "d" },
    conditions := [], syncValues := [] }

/-- The sync rule of the threshold scenario: one explicit json path. -/
def ruleReplicas : StatusSyncRule :=
  { type := .JSONPaths,
    jsonPaths := [{ name := "Replicas", version := "", path := ".status.replicas" }],
    scripts := [] }

/-- A manifest config for Deployments carrying `stopSyncThreshold = 1`
("stop after 1 consecutive identical observation"). -/
def cfgThreshold : ManifestConfig :=
  { resourceIdentifier := { group := "apps", version := "v1", kind := "Deployment" },
    statusSyncRules := [ruleReplicas], stopSyncThreshold := 1 }

/-- A Work with one Deployment manifest configured with the stop-sync
threshold. -/
def wThreshold : Work :=
  { generation := 0,
    spec := { manifests := [{ raw := "m0" }], manifestConfigs := [cfgThreshold] },
    status := { conditions := [], manifestConditions := [mcEmpty] } }

/-- An environment whose fetch succeeds and whose status reader reports
`Replicas = v`. -/
def envReplicas (v : Int) : SyncEnv :=
  { build := fun _ => { decode := .ok, fetch := .ok objZ },
    reader := fun _ _ =>
      ([{ name := "Replicas",
          value := { type := .Integer, integer := some v, string := none, boolean := none } }],
       none) }

/-- The candidate status of the first `envReplicas 1` pass over `wThreshold`
at time 1. -/
def stThreshold1 : WorkStatusM :=
  { conditions := [{ type := "Available", status := .ctrue, reason := "ResourcesAvailable",
                     message := "All resources are available",
                     observedGeneration := 0, lastTransitionTime := 1 }],
    manifestConditions :=
      [{ identifier := emptyIdentifier,
         conditions := [{ type := "Available", status := .ctrue,
                          reason := "ResourceAvailable", message := "Resource is available",
                          observedGeneration := 0, lastTransitionTime := 1 },
                        { type := "StatusSynced", status := .ctrue,
                          reason := "StatusSynced", message := "",
                          observedGeneration := 0, lastTransitionTime := 1 }],
         syncValues := [{ name := "Replicas",
                          value := { type := .Integer, integer := some 1,
                                     string := none, boolean := none } }] }] }

/-- The candidate of the third pass, in which the resource's replica count
changed to 2. -/
def stThreshold2 : WorkStatusM :=
  { conditions := [{ type := "Available", status := .ctrue, reason := "ResourcesAvailable",
                     message := "All resources are available",
                     observedGeneration := 0, lastTransitionTime := 1 }],
    manifestConditions :=
      [{ identifier := emptyIdentifier,
         conditions := [{ type := "Available", status := .ctrue,
                          reason := "ResourceAvailable", message := "Resource is available",
                          observedGeneration := 0, lastTransitionTime := 1 },
                        { type := "StatusSynced", status := .ctrue,
                          reason := "StatusSynced", message := "",
                          observedGeneration := 0, lastTransitionTime := 1 }],
         syncValues := [{ name := "Replicas",
                          value := { type := .Integer, integer := some 2,
                                     string := none, boolean := none } }] }] }

/-- A Work of generation 1 with one configured Deployment manifest. -/
def wGenOne : Work :=
  { generation := 1,
    spec := { manifests := [{ raw := "m0" }], manifestConfigs := [cfgThreshold] },
    status := { conditions := [], manifestConditions := [mcEmpty] } }

theorem tallyConds_eq (L : List Condition) (a b c : Nat) :
    tallyConds (a, b, c) L =
      (a + L.countP (fun x => decide (x.type = "Available" ∧ x.status = .ctrue)),
       b + L.countP (fun x => decide (x.type = "Available" ∧ x.status = .cfalse)),
       c + L.countP (fun x => decide (x.type = "Available" ∧ x.status = .cunknown))) := by
  induction L generalizing a b c with
  | nil => simp [tallyConds]
  | cons hd tl ih =>
    by_cases ht : hd.type = "Available"
    · cases hs : hd.status <;>
        simp [tallyConds, ht, hs, List.countP_cons, ih, Prod.mk.injEq] <;> omega
    · simp [tallyConds, ht, List.countP_cons, ih]

theorem tallyManifests_eq (ms : List ManifestConditionM) (a b c : Nat) :
    tallyManifests (a, b, c) ms =
      (a + countAvailStatus .ctrue ms, b + countAvailStatus .cfalse ms,
       c + countAvailStatus .cunknown ms) := by
  induction ms generalizing a b c with
  | nil => simp [tallyManifests, countAvailStatus]
  | cons hd tl ih =>
    simp only [tallyManifests, tallyConds_eq, ih, countAvailStatus, List.map_cons,
      List.flatten_cons, List.countP_append, Prod.mk.injEq]
    refine ⟨by omega, by omega, by omega⟩

/-- Claim C1: `aggregate(g, manifests)` counts each manifest's `"Available"`
conditions as True/False/Unknown and applies the exact precedence: positive
False count → False / "ResourcesNotAvailable" with message
"<falseCount> of <total> resources are not available"; else positive Unknown
count → Unknown / "ResourcesStatusUnknown" with message
"<unknownCount> of <total> resources have unknown status"; else zero True
count (including the empty list) → Unknown / "ResourcesStatusUnknown" with
message "cannot get any available resource"; else True /
"ResourcesAvailable". -/
theorem aggregate_precedence (g : Int) (ms : List ManifestConditionM) :
    aggregateManifestConditions g ms =
      (let falseCount := countAvailStatus .cfalse ms
       let unknownCount := countAvailStatus .cunknown ms
       let trueCount := countAvailStatus .ctrue ms
       let total := ms.length
       if 0 < falseCount then
         { type := "Available", status := .cfalse, reason := "ResourcesNotAvailable",
           observedGeneration := g,
           message := toString falseCount ++ " of " ++ toString total ++ " resources are not available",
           lastTransitionTime := 0 }
       else if 0 < unknownCount then
         { type := "Available", status := .cunknown, reason := "ResourcesStatusUnknown",
           observedGeneration := g,
           message := toString unknownCount ++ " of " ++ toString total ++ " resources have unknown status",
           lastTransitionTime := 0 }
       else if trueCount = 0 then
         { type := "Available", status := .cunknown, reason := "ResourcesStatusUnknown",
           observedGeneration := g,
           message := "cannot get any available resource",
           lastTransitionTime := 0 }
       else
         { type := "Available", status := .ctrue, reason := "ResourcesAvailable",
           observedGeneration := g,
           message := "All resources are available",
           lastTransitionTime := 0 }) := by
  simp only [aggregateManifestConditions, tallyManifests_eq, Nat.zero_add]

/-- Claim C2: extraction of a single scalar round-trips the value with the
matching discriminant (Integer/String/Boolean); zero results, an empty
first result group, or a null value yield "absent" (no value, no error); a
value of any other runtime type, or a path that does not parse, yields an
error and no value. -/
theorem getValueByJsonPath_extraction (name path : String) (i : Int) (s : String) (b : Bool)
    (t msg : String) (rest : List (List GoValue)) (vs : List GoValue) :
    getValueByJsonPath name path (.results [[.vint i]]) =
      .ok (some { name := name, value := { type := .Integer, integer := some i, string := none, boolean := none } }) ∧
    getValueByJsonPath name path (.results [[.vstr s]]) =
      .ok (some { name := name, value := { type := .String, integer := none, string := some s, boolean := none } }) ∧
    getValueByJsonPath name path (.results [[.vbool b]]) =
      .ok (some { name := name, value := { type := .Boolean, integer := none, string := none, boolean := some b } }) ∧
    getValueByJsonPath name path (.results []) = .ok none ∧
    getValueByJsonPath name path (.results ([] :: rest)) = .ok none ∧
    getValueByJsonPath name path (.results ((.vnull :: vs) :: rest)) = .ok none ∧
    getValueByJsonPath name path (.results [[.vother t]]) =
      .error ("the type " ++ t ++ " of the value for " ++ name ++ " is not found") ∧
    getValueByJsonPath name path (.parseError msg) =
      .error ("failed to parse json path " ++ path ++ " of " ++ name ++ " with error: " ++ msg) := by
  exact ⟨rfl, rfl, rfl, rfl, rfl, rfl, rfl, rfl⟩

/-- Claim C5: resolving a `CommonFields` rule for a type that is not in the
built-in table returns an error and zero extracted values; the registered
Deployment type resolves to exactly the three paths ReadyReplicas,
Replicas, AvailableReplicas, in that order. -/
theorem commonFields_resolution :
    (∀ (obj : ResourceObject) (jps : List JsonPath),
       GetPathsByKind obj.gvk = [] →
       GetValuesByRule obj { type := .CommonFields, jsonPaths := jps } =
         ([], some (noCommonFieldsMsg obj.gvk))) ∧
    GetPathsByKind { group := "apps", version := "v1", kind := "Deployment" } =
      [{ name := "ReadyReplicas", version := "", path := ".status.readyReplicas" },
       { name := "Replicas", version := "", path := ".status.replicas" },
       { name := "AvailableReplicas", version := "", path := ".status.availableReplicas" }] := by
  constructor
  · intro obj jps h
    simp [GetValuesByRule, h]
  · rfl

theorem commonFields_resolution_witness :
    GetValuesByRule widgetObj { type := .CommonFields, jsonPaths := [] } =
      ([], some (noCommonFieldsMsg { group := "example.com", version := "v1", kind := "Widget" })) :=
  commonFields_resolution.1 widgetObj [] (by decide)

theorem collectRuleValues_foldl (reader : SyncReader) (obj : ResourceObject)
    (rules : List StatusSyncRule) (init : List SyncValue × List String) :
    rules.foldl (collectRuleValues reader obj) init =
      (init.1 ++ ((rules.map (fun r => (reader obj r).1)).flatten),
       init.2 ++ (rules.filterMap (fun r => (reader obj r).2))) := by
  induction rules generalizing init with
  | nil => simp
  | cons hd tl ih =>
    simp only [List.foldl_cons, ih, List.map_cons, List.flatten_cons, List.filterMap_cons]
    unfold collectRuleValues
    rcases h2 : (reader obj hd).2 with _ | e <;>
      by_cases h1 : (reader obj hd).1.length > 0 <;>
      simp_all [List.append_assoc, Nat.pos_iff_ne_zero, List.length_eq_zero]

theorem aggregateErrors_ne_nil (errs : List String) (h : errs ≠ []) :
    aggregateErrors errs = some ((aggregateErrors errs).getD "") := by
  cases errs with
  | nil => exact absurd rfl h
  | cons e rest => cases rest <;> rfl

/-- Claim C3: the sync-outcome condition satisfies exactly one of: any rule error
→ False / "StatusSyncFailed" with the aggregated error text; no error and
zero values → True / "NoStatusSynced"; no error and at least one value →
True / "StatusSynced"; and the values of the non-failing rules are always
returned (errors are aggregated, not short-circuited). -/
theorem getSyncValues_outcome (reader : SyncReader) (obj : ResourceObject)
    (rules : List StatusSyncRule) :
    getSyncValues reader obj rules =
      (let results := rules.map (reader obj)
       let values := (results.map Prod.fst).flatten
       let errs := results.filterMap Prod.snd
       (values,
        if errs ≠ [] then
          { type := "StatusSynced", status := .cfalse, reason := "StatusSyncFailed",
            message := "Sync status failed with error " ++ ((aggregateErrors errs).getD ""),
            observedGeneration := 0, lastTransitionTime := 0 }
        else if values = [] then
          { type := "StatusSynced", status := .ctrue, reason := "NoStatusSynced",
            message := "", observedGeneration := 0, lastTransitionTime := 0 }
        else
          { type := "StatusSynced", status := .ctrue, reason := "StatusSynced",
            message := "", observedGeneration := 0, lastTransitionTime := 0 })) := by
  simp only [getSyncValues, collectRuleValues_foldl, List.nil_append, List.map_map,
    List.filterMap_map, Function.comp_def]
  rcases herr : rules.filterMap (fun r => (reader obj r).2) with _ | ⟨e, rest⟩
  · simp only [aggregateErrors, List.length_eq_zero]
    split <;> simp_all
  · rw [aggregateErrors_ne_nil (e :: rest) (by simp)]
    simp

/-- Claim C4: building the availability condition yields exactly one of four
outcomes — decode failure → Unknown / "IncompletedResourceMeta" with the
error returned; not-found fetch → False / "ResourceNotAvailable" with the
underlying error; any other fetch error → Unknown /
"FetchingResourceFailed" with a message carrying the error detail; success
→ True / "ResourceAvailable" and a nil error — and the returned error is
non-nil exactly in the three failure cases. -/
theorem buildAvailableStatusCondition_cases (e : String) (obj : ResourceObject)
    (f : FetchOutcome) (env : BuildEnv) :
    buildAvailableStatusCondition { decode := .err e, fetch := f } =
      (none,
       { type := "Available", status := .cunknown, reason := "IncompletedResourceMeta",
         message := "Resource meta is incompleted", observedGeneration := 0,
         lastTransitionTime := 0 },
       some e) ∧
    buildAvailableStatusCondition { decode := .ok, fetch := .notFound e } =
      (none,
       { type := "Available", status := .cfalse, reason := "ResourceNotAvailable",
         message := "Resource is not available", observedGeneration := 0,
         lastTransitionTime := 0 },
       some e) ∧
    buildAvailableStatusCondition { decode := .ok, fetch := .otherError e } =
      (none,
       { type := "Available", status := .cunknown, reason := "FetchingResourceFailed",
         message := "Failed to fetch resource: " ++ e, observedGeneration := 0,
         lastTransitionTime := 0 },
       some e) ∧
    buildAvailableStatusCondition { decode := .ok, fetch := .ok obj } =
      (some obj,
       { type := "Available", status := .ctrue, reason := "ResourceAvailable",
         message := "Resource is available", observedGeneration := 0,
         lastTransitionTime := 0 },
       none) ∧
    ((buildAvailableStatusCondition env).2.2 = none ↔
       env.decode = .ok ∧ ∃ o, env.fetch = .ok o) := by
  refine ⟨rfl, rfl, rfl, rfl, ?_⟩
  rcases env with ⟨d, f'⟩
  cases d <;> cases f' <;> simp [buildAvailableStatusCondition]

theorem stampNewCondition_matches (now : Nat) (c : Condition) :
    condMatches (stampNewCondition now c) c := by
  unfold stampNewCondition condMatches
  split <;> simp

theorem updateExistingCondition_matches (now : Nat) (e c : Condition)
    (ht : e.type = c.type) : condMatches (updateExistingCondition now e c) c := by
  unfold updateExistingCondition condMatches
  by_cases hs : e.status = c.status <;> simp [hs, ht]

theorem updateExistingCondition_noop (now : Nat) (a c : Condition)
    (h : condMatches a c) : updateExistingCondition now a c = a := by
  obtain ⟨ht, hs, hr, hmsg, hg⟩ := h
  unfold updateExistingCondition
  simp only [hs, if_true]
  cases a
  simp_all

theorem findType_setStatusCondition_self (now : Nat) (L : List Condition) (c : Condition) :
    ∃ e, findType (setStatusCondition now L c) c.type = some e ∧ condMatches e c := by
  induction L with
  | nil =>
    refine ⟨stampNewCondition now c, ?_, stampNewCondition_matches now c⟩
    have ht := (stampNewCondition_matches now c).1
    simp [setStatusCondition, findType, ht]
  | cons a rest ih =>
    by_cases ha : a.type = c.type
    · refine ⟨updateExistingCondition now a c, ?_, updateExistingCondition_matches now a c ha⟩
      have ht := (updateExistingCondition_matches now a c ha).1
      simp [setStatusCondition, ha, findType, ht]
    · obtain ⟨e, hf, hm⟩ := ih
      exact ⟨e, by simp [setStatusCondition, ha, findType, hf], hm⟩

theorem findType_setStatusCondition_ne (now : Nat) (L : List Condition) (c : Condition)
    (t : String) (h : t ≠ c.type) :
    findType (setStatusCondition now L c) t = findType L t := by
  induction L with
  | nil =>
    have ht := (stampNewCondition_matches now c).1
    simp [setStatusCondition, findType, ht, h, Ne.symm h]
  | cons a rest ih =>
    by_cases ha : a.type = c.type
    · have ht := (updateExistingCondition_matches now a c ha).1
      have h1 : ¬ (updateExistingCondition now a c).type = t := by
        rw [ht]; exact fun hh => h hh.symm
      have h2 : ¬ a.type = t := by rw [ha]; exact fun hh => h hh.symm
      simp [setStatusCondition, ha, findType, h1, h2, Ne.symm h]
    · simp [setStatusCondition, ha, findType, ih]

theorem setStatusCondition_noop (now : Nat) (L : List Condition) (c e : Condition)
    (hf : findType L c.type = some e) (hm : condMatches e c) :
    setStatusCondition now L c = L := by
  induction L with
  | nil => simp [findType] at hf
  | cons a rest ih =>
    by_cases ha : a.type = c.type
    · have : a = e := by simpa [findType, ha] using hf
      subst this
      simp [setStatusCondition, ha, updateExistingCondition_noop now a c hm]
    · have hf' : findType rest c.type = some e := by simpa [findType, ha] using hf
      simp [setStatusCondition, ha, ih hf']

theorem setStatusCondition_stable (t2 t1 : Nat) (L : List Condition) (c : Condition) :
    setStatusCondition t2 (setStatusCondition t1 L c) c = setStatusCondition t1 L c := by
  obtain ⟨e, hf, hm⟩ := findType_setStatusCondition_self t1 L c
  exact setStatusCondition_noop t2 _ c e hf hm

theorem buildAvailableStatusCondition_type (env : BuildEnv) :
    (buildAvailableStatusCondition env).2.1.type = "Available" := by
  rcases env with ⟨d, f⟩
  cases d <;> cases f <;> rfl

theorem getSyncValues_condType (reader : SyncReader) (obj : ResourceObject)
    (rules : List StatusSyncRule) :
    (getSyncValues reader obj rules).2.type = "StatusSynced" := by
  simp only [getSyncValues]
  split
  · rfl
  · split <;> rfl

theorem syncLoop_length (env : SyncEnv) (now : Nat) (spec : WorkSpecM)
    (idxs : List Nat) (mcs r : List ManifestConditionM)
    (h : syncLoop env now spec idxs mcs = some r) : r.length = mcs.length := by
  induction idxs generalizing mcs with
  | nil => simp [syncLoop] at h; simp [h]
  | cons i rest ih =>
    by_cases hi : i < mcs.length
    · simp only [syncLoop, dif_pos hi] at h
      simpa [List.length_set] using ih _ h
    · simp [syncLoop, dif_neg hi] at h

theorem syncLoop_isSome (env : SyncEnv) (now : Nat) (spec : WorkSpecM)
    (idxs : List Nat) (mcs : List ManifestConditionM)
    (hb : ∀ i ∈ idxs, i < mcs.length) :
    (syncLoop env now spec idxs mcs).isSome = true := by
  induction idxs generalizing mcs with
  | nil => simp [syncLoop]
  | cons i rest ih =>
    have hi : i < mcs.length := hb i (by simp)
    simp only [syncLoop, dif_pos hi]
    exact ih _ (fun j hj => by
      rw [List.length_set]
      exact hb j (by simp [hj]))

theorem syncLoop_get? (env : SyncEnv) (now : Nat) (spec : WorkSpecM)
    (idxs : List Nat) (mcs r : List ManifestConditionM)
    (hnd : idxs.Nodup) (h : syncLoop env now spec idxs mcs = some r) (j : Nat) :
    r.get? j = (mcs.get? j).map
      (fun mc => if j ∈ idxs then updateManifestEntry env now spec j mc else mc) := by
  induction idxs generalizing mcs with
  | nil =>
    simp only [syncLoop, Option.some.injEq] at h
    subst h
    cases mcs.get? j <;> simp
  | cons i rest ih =>
    by_cases hi : i < mcs.length
    · simp only [syncLoop, dif_pos hi] at h
      have hnd' : rest.Nodup := hnd.of_cons
      have hni : i ∉ rest := by
        have := List.nodup_cons.mp hnd
        exact this.1
      have ihm := ih _ hnd' h
      by_cases hji : j = i
      · subst hji
        rw [ihm]
        rw [List.get?_set_eq_of_lt _ hi]
        have hmem : j ∈ j :: rest := by simp
        simp [hni, hmem, List.getElem?_eq_getElem hi]
      · rw [ihm, List.get?_set_ne _ _ (fun hh => hji hh.symm)]
        simp only [List.mem_cons, hji, false_or]
    · simp [syncLoop, dif_neg hi] at h

theorem syncLoop_bounds (env : SyncEnv) (now : Nat) (spec : WorkSpecM)
    (idxs : List Nat) (mcs r : List ManifestConditionM)
    (h : syncLoop env now spec idxs mcs = some r) : ∀ i ∈ idxs, i < mcs.length := by
  induction idxs generalizing mcs with
  | nil => simp
  | cons i rest ih =>
    by_cases hi : i < mcs.length
    · simp only [syncLoop, dif_pos hi] at h
      intro k hk
      rcases List.mem_cons.mp hk with hk | hk
      · exact hk ▸ hi
      · have := ih _ h k hk
        simpa [List.length_set] using this
    · simp [syncLoop, dif_neg hi] at h

theorem setStatusCondition_pair_stable (t2 t1 : Nat) (L : List Condition) (a s : Condition)
    (hne : a.type ≠ s.type) :
    setStatusCondition t2 (setStatusCondition t2
        (setStatusCondition t1 (setStatusCondition t1 L a) s) a) s =
      setStatusCondition t1 (setStatusCondition t1 L a) s := by
  have h1 : setStatusCondition t2 (setStatusCondition t1 (setStatusCondition t1 L a) s) a =
      setStatusCondition t1 (setStatusCondition t1 L a) s := by
    obtain ⟨e, hf, hm⟩ := findType_setStatusCondition_self t1 L a
    have hfa : findType (setStatusCondition t1 (setStatusCondition t1 L a) s) a.type = some e := by
      rw [findType_setStatusCondition_ne t1 _ s a.type hne]
      exact hf
    exact setStatusCondition_noop t2 _ a e hfa hm
  rw [h1]
  obtain ⟨e, hf, hm⟩ := findType_setStatusCondition_self t1 (setStatusCondition t1 L a) s
  exact setStatusCondition_noop t2 _ s e hf hm

theorem updateManifestEntry_idem (env : SyncEnv) (t2 t1 : Nat) (spec : WorkSpecM)
    (i : Nat) (mc : ManifestConditionM) :
    updateManifestEntry env t2 spec i (updateManifestEntry env t1 spec i mc) =
      updateManifestEntry env t1 spec i mc := by
  have htype := buildAvailableStatusCondition_type (env.build i)
  simp only [updateManifestEntry]
  rcases hb : buildAvailableStatusCondition (env.build i) with ⟨objOpt, cond, errOpt⟩
  rw [hb] at htype
  simp only at htype
  rcases errOpt with _ | e
  · rcases objOpt with _ | obj
    · simp [setStatusCondition_stable]
    · rcases hc : findMatchingConfig spec.manifestConfigs obj.gvk with _ | cfg
      · simp [hc, setStatusCondition_stable]
      · have hstype := getSyncValues_condType env.reader obj cfg.statusSyncRules
        have hne : cond.type ≠ (getSyncValues env.reader obj cfg.statusSyncRules).2.type := by
          rw [htype, hstype]
          decide
        simp [hc, setStatusCondition_pair_stable t2 t1 mc.conditions cond _ hne]
  · simp [setStatusCondition_stable]

theorem updateManifestEntry_congr (env env' : SyncEnv) (now : Nat) (spec : WorkSpecM)
    (i : Nat) (mc : ManifestConditionM) (hb : env.build i = env'.build i)
    (hr : env.reader = env'.reader) :
    updateManifestEntry env now spec i mc = updateManifestEntry env' now spec i mc := by
  simp only [updateManifestEntry, hb, hr]

/-- Claim C10: under the precondition that `Status.ManifestConditions` has at
least as many entries as `Spec.Workload.Manifests`, every unguarded index
access `work.Status.ManifestConditions[index]` of `syncWork` is in bounds
(the pass completes); the precondition is necessary — for a Work whose
manifest-condition list is shorter than its manifest list, the pass hits an
out-of-bounds access (modelled as `none`, the Go panic). -/
theorem syncWork_index_safety :
    (∀ (env : SyncEnv) (now : Nat) (w : Work),
       w.spec.manifests.length ≤ w.status.manifestConditions.length →
       (syncWorkCandidate env now w).isSome = true) ∧
    syncWorkCandidate trivialEnv 0 badWork = none := by
  constructor
  · intro env now w h
    have hb : ∀ i ∈ List.range w.spec.manifests.length,
        i < w.status.manifestConditions.length := by
      intro i hi
      have := List.mem_range.mp hi
      omega
    have hs := syncLoop_isSome env now w.spec _ _ hb
    unfold syncWorkCandidate
    rcases hl : syncLoop env now w.spec (List.range w.spec.manifests.length)
        w.status.manifestConditions with _ | r
    · rw [hl] at hs; simp at hs
    · simp
  · rfl

theorem syncWork_index_safety_witness :
    (syncWorkCandidate trivialEnv 0 goodWork).isSome = true :=
  syncWork_index_safety.1 trivialEnv 0 goodWork (by decide)

/-- Claim C6: one reconcile pass of `syncWork` is idempotent with respect to
writes: if a pass on `w` produced the candidate status `st1`, then a later
pass with the same collaborator outcomes (unchanged backing resources and
rules) starting from the persisted `st1` rebuilds exactly `st1`, the
deep-equality comparison detects no change, and no status update is issued. -/
theorem syncWork_idempotent (env : SyncEnv) (t1 t2 : Nat) (w : Work) (st1 : WorkStatusM)
    (h1 : syncWorkCandidate env t1 w = some st1) :
    syncWorkCandidate env t2 { w with status := st1 } = some st1 ∧
    syncWork env t2 { w with status := st1 } = some (st1, false) := by
  unfold syncWorkCandidate at h1
  rcases hl1 : syncLoop env t1 w.spec (List.range w.spec.manifests.length)
      w.status.manifestConditions with _ | r1
  · rw [hl1] at h1; exact absurd h1 (by simp)
  rw [hl1] at h1
  simp only [Option.some.injEq] at h1
  have hlen := syncLoop_length env t1 w.spec _ _ _ hl1
  have hb1 := syncLoop_bounds env t1 w.spec _ _ _ hl1
  have hb2 : ∀ i ∈ List.range w.spec.manifests.length, i < r1.length := by
    intro i hi
    rw [hlen]
    exact hb1 i hi
  have hs2 := syncLoop_isSome env t2 w.spec _ r1 hb2
  rcases hl2 : syncLoop env t2 w.spec (List.range w.spec.manifests.length) r1 with _ | r2
  · rw [hl2] at hs2; simp at hs2
  have hr21 : r2 = r1 := by
    apply List.ext_get?_iff.mpr
    intro j
    rw [syncLoop_get? env t2 w.spec _ r1 r2 (List.nodup_range _) hl2 j,
        syncLoop_get? env t1 w.spec _ w.status.manifestConditions r1 (List.nodup_range _) hl1 j]
    rcases w.status.manifestConditions.get? j with _ | mc
    · simp
    · by_cases hj : j ∈ List.range w.spec.manifests.length
      · simp [hj, updateManifestEntry_idem]
      · simp [hj]
  subst hr21
  have hcand2 : syncWorkCandidate env t2 { w with status := st1 } = some st1 := by
    unfold syncWorkCandidate
    have hspec : ({ w with status := st1 } : Work).spec = w.spec := rfl
    have hgen : ({ w with status := st1 } : Work).generation = w.generation := rfl
    have hmcs : ({ w with status := st1 } : Work).status.manifestConditions = r2 := by
      rw [← h1]
    have hconds : ({ w with status := st1 } : Work).status.conditions =
        setStatusCondition t1 w.status.conditions
          (aggregateManifestConditions w.generation r2) := by
      rw [← h1]
    rw [hspec, hgen, hmcs, hconds, hl2]
    simp only [Option.some.injEq]
    rw [← h1]
    simp [setStatusCondition_stable]
  refine ⟨hcand2, ?_⟩
  unfold syncWork
  rw [hcand2]
  simp [← h1]

theorem syncWork_idempotent_witness :
    syncWorkCandidate trivialEnv 9 { goodWork with status := st1Good } = some st1Good ∧
    syncWork trivialEnv 9 { goodWork with status := st1Good } = some (st1Good, false) :=
  syncWork_idempotent trivialEnv 7 9 goodWork st1Good (by decide)

/-- Claim C7 (amended, status-sync controller part): in a `syncWork` pass, every sibling
manifest entry `j ≠ i` is fully processed from its own collaborator
outcomes — its candidate entry is exactly `updateManifestEntry` applied to
its previous entry (availability condition computed, rules resolved and
extracted, values reported) — and it is identical to the entry the same
pass would produce were manifest `i`'s fetch outcome different (e.g. not a
failure): a fetch failure at `i` affects only manifest `i`'s own entry. -/
theorem syncWork_sibling_isolation (env env' : SyncEnv) (now : Nat) (w : Work) (i : Nat)
    (hb : ∀ j, j ≠ i → env.build j = env'.build j) (hr : env.reader = env'.reader)
    (st st' : WorkStatusM)
    (h : syncWorkCandidate env now w = some st)
    (h' : syncWorkCandidate env' now w = some st')
    (j : Nat) (hne : j ≠ i) (hj : j < w.spec.manifests.length) :
    st.manifestConditions.get? j =
      (w.status.manifestConditions.get? j).map (updateManifestEntry env now w.spec j) ∧
    st.manifestConditions.get? j = st'.manifestConditions.get? j := by
  unfold syncWorkCandidate at h h'
  rcases hl : syncLoop env now w.spec (List.range w.spec.manifests.length)
      w.status.manifestConditions with _ | r
  · rw [hl] at h; exact absurd h (by simp)
  rcases hl' : syncLoop env' now w.spec (List.range w.spec.manifests.length)
      w.status.manifestConditions with _ | r'
  · rw [hl'] at h'; exact absurd h' (by simp)
  rw [hl] at h
  rw [hl'] at h'
  simp only [Option.some.injEq] at h h'
  have hst : st.manifestConditions = r := by rw [← h]
  have hst' : st'.manifestConditions = r' := by rw [← h']
  have hmem : j ∈ List.range w.spec.manifests.length := List.mem_range.mpr hj
  have hg := syncLoop_get? env now w.spec _ _ r (List.nodup_range _) hl j
  have hg' := syncLoop_get? env' now w.spec _ _ r' (List.nodup_range _) hl' j
  rw [hst, hst']
  constructor
  · rw [hg]
    rcases w.status.manifestConditions.get? j with _ | mc
    · simp
    · simp [hmem]
  · rw [hg, hg']
    rcases w.status.manifestConditions.get? j with _ | mc
    · simp
    · simp [hmem, updateManifestEntry_congr env env' now w.spec j mc (hb j hne) hr]

theorem syncWork_sibling_isolation_witness :
    stBothOk.manifestConditions.get? 1 =
      (wTwo.status.manifestConditions.get? 1).map (updateManifestEntry envBothOk 5 wTwo.spec 1) ∧
    stBothOk.manifestConditions.get? 1 = stFirstNotFound.manifestConditions.get? 1 :=
  syncWork_sibling_isolation envBothOk envFirstNotFound 5 wTwo 0
    (by intro j hj; simp [envBothOk, envFirstNotFound, hj]) rfl
    stBothOk stFirstNotFound (by decide) (by decide) 1 (by decide) (by decide)

/-- Claim C7 counterexample (edge-triggered feedback reconciler): with two
manifests, manifest 0's fetch failing and manifest 1's fetch succeeding
with an extractable value, the pass returns with the status untouched —
sibling manifest 1 is left with no feedback condition and no values even
though its own extraction would have produced
`ReadyReplicas = 3` and a `"StatusFeedbackSynced"` condition.  This refutes
the claim that a fetch failure for one manifest still lets the same pass
fully process every sibling manifest. -/
theorem reconcile_fetch_failure_skips_sibling :
    reconcileManifests ffetchCex 5 0 manifestsCex [mcEmpty, mcSibling] =
      [mcEmpty, mcSibling] ∧
    mcSibling.conditions = [] ∧ mcSibling.syncValues = [] ∧
    ffetchCex 1 = some objThree ∧
    (getFeedbackValues objThree rulesCex).1 =
      [{ name := "ReadyReplicas",
         value := { type := .Integer, integer := some 3, string := none, boolean := none } }] ∧
    (getFeedbackValues objThree rulesCex).2.reason = "StatusFeedbackSynced" := by
  refine ⟨rfl, rfl, rfl, rfl, rfl, rfl⟩

/-- Claim C8: `syncWork` never honours the configured `stopSyncThreshold`.  With
threshold 1, pass 1 writes the synced status, pass 2 observes no change
(one consecutive identical observation — the threshold is reached), yet
pass 3 still performs extraction for the manifest: when the resource's
value changes the candidate changes with it and a write is issued, where
the claim requires extraction to be skipped from pass 3 on. -/
theorem stopSyncThreshold_ignored :
    syncWork (envReplicas 1) 1 wThreshold = some (stThreshold1, true) ∧
    syncWork (envReplicas 1) 2 { wThreshold with status := stThreshold1 } =
      some (stThreshold1, false) ∧
    syncWork (envReplicas 2) 3 { wThreshold with status := stThreshold1 } =
      some (stThreshold2, true) ∧
    stThreshold2 ≠ stThreshold1 := by
  refine ⟨by decide, by decide, by decide, by decide⟩

/-- Claim C9 counterexample: for a workload of generation 1, the
per-manifest conditions computed by the pass (availability and sync
outcome) carry observedGeneration 0, not the workload's generation. -/
theorem observedGeneration_not_stamped_on_manifest_conditions :
    wGenOne.generation = 1 ∧
    (syncWorkCandidate (envReplicas 1) 1 wGenOne).map
        (fun st => st.manifestConditions.map
          (fun mc => mc.conditions.map (fun c => c.observedGeneration))) =
      some [[0, 0]] ∧
    ((0 : Int) = wGenOne.generation → False) := by
  refine ⟨rfl, by decide, by decide⟩

/-- Claim C9 (amended): the work-level aggregate condition is stamped with the
workload's current generation, while the per-manifest availability and
sync-outcome conditions are built with observedGeneration 0 (unset). -/
theorem observedGeneration_stamping :
    (∀ (g : Int) (ms : List ManifestConditionM),
       (aggregateManifestConditions g ms).observedGeneration = g) ∧
    (∀ env : BuildEnv, (buildAvailableStatusCondition env).2.1.observedGeneration = 0) ∧
    (∀ (reader : SyncReader) (obj : ResourceObject) (rules : List StatusSyncRule),
       (getSyncValues reader obj rules).2.observedGeneration = 0) := by
  refine ⟨?_, ?_, ?_⟩
  · intro g ms
    simp only [aggregateManifestConditions]
    split
    · rfl
    · split
      · rfl
      · split <;> rfl
  · intro env
    rcases env with ⟨d, f⟩
    cases d <;> cases f <;> rfl
  · intro reader obj rules
    simp only [getSyncValues]
    split
    · rfl
    · split <;> rfl
